import Mathlib

/-!
Verification of the MRN fragment reassembler from
`src/OMMStream-MRN-LD.py` (function `process_mrn_update`).

The reassembler keeps a global list `_news_envelopes` of in-flight
multi-fragment news messages.  Each update event carries a `Fields`
dictionary with the keys `FRAGMENT` (base64 string), `FRAG_NUM`,
`GUID`, `MRN_SRC` and, on first fragments, `TOT_SIZE`.

We model the field dictionary as an association list of `String × PyVal`,
the envelope list as a Lean list of `Envelope` structures, and the body
of `process_mrn_update` as a pure function from an event and the current
envelope list to an `Outcome` (which records which return path or
`except` handler the Python code reaches) together with the new list.

The two library calls whose results feed the decode pipeline
(`zlib.decompress` and `json.loads`) are taken as explicit functional
parameters `inflate` and `loads`; a `none` result stands for the
corresponding Python exception (`zlib.error`, resp. `json.JSONDecodeError`,
the latter a subclass of `ValueError`).  `base64.b64decode` and `int()`
are modelled executably below.
-/

/-- A Python value as it appears in the `Fields` dictionary: the fields
used by the program are strings or integers.  Equality is Python `==`
restricted to these two types (values of different types are unequal). -/
inductive PyVal where
  | pstr (s : String)
  | pint (n : Int)
deriving DecidableEq

/-- The `Fields` dictionary of an update event, as an association list. -/
abbrev Fields := List (String × PyVal)

/-- Dictionary lookup `fields_data[k]`: `none` models a `KeyError`. -/
def lookupF (fd : Fields) (k : String) : Option PyVal :=
  match fd with
  | [] => none
  | (k', v) :: rest => if k' = k then some v else lookupF rest k

/-- Digit-string value: `some n` when the characters are a non-empty
run of decimal digits. -/
def digitsVal (cs : List Char) : Option Nat :=
  if cs ≠ [] ∧ cs.all Char.isDigit then
    some (cs.foldl (fun a c => a * 10 + (c.toNat - 48)) 0)
  else none

/-- Python `int()` applied to a string: an optional sign followed by
decimal digits (the whitespace and underscore forms of the Python
grammar are not used by the data and are not modelled). -/
def parseIntStr (s : String) : Option Int :=
  match s.data with
  | '-' :: cs => (digitsVal cs).map (fun n => -(n : Int))
  | '+' :: cs => (digitsVal cs).map (fun n => (n : Int))
  | cs => (digitsVal cs).map (fun n => (n : Int))

/-- Python `int()` applied to a field value: integers pass through,
strings are parsed.  `none` models a `ValueError`. -/
def pyToInt : PyVal → Option Int
  | .pint n => some n
  | .pstr s => parseIntStr s

/-- Value of one base64 alphabet character. -/
def b64CharVal (c : Char) : Option Nat :=
  if 'A' ≤ c ∧ c ≤ 'Z' then some (c.toNat - 65)
  else if 'a' ≤ c ∧ c ≤ 'z' then some (c.toNat - 71)
  else if '0' ≤ c ∧ c ≤ '9' then some (c.toNat + 4)
  else if c = '+' then some 62
  else if c = '/' then some 63
  else none

/-- Decode a run of 6-bit groups into bytes, four groups to three bytes,
with the usual truncated final group; a single trailing group is
invalid. -/
def b64Quads : List Nat → Option (List Nat)
  | [] => some []
  | [_] => none
  | [a, b] => some [a * 4 + b / 16]
  | [a, b, c] => some [a * 4 + b / 16, b % 16 * 16 + c / 4]
  | a :: b :: c :: d :: rest =>
    (b64Quads rest).map
      (fun tail => (a * 4 + b / 16) :: (b % 16 * 16 + c / 4) :: (c % 4 * 64 + d) :: tail)

/-- Modelled from the library `base64.b64decode` (lenient mode, as called
at line 51 of the source): characters outside the alphabet and `=` are
discarded, then the remaining characters must form complete four-character
groups with at most two trailing `=` padding characters; `none` models a
raised `binascii.Error`. -/
def b64decode (s : String) : Option (List Nat) :=
  let kept := s.data.filter (fun c => (b64CharVal c).isSome || c == '=')
  let dataCs := kept.takeWhile (fun c => c != '=')
  let pads := kept.drop dataCs.length
  if (pads.all (fun c => c == '=')) ∧ kept.length % 4 = 0 ∧ pads.length ≤ 2 then
    b64Quads (dataCs.filterMap b64CharVal)
  else none

/-- One in-flight news envelope, as appended at lines 89-97 of the
source: the `GUID` key next to a `data` dictionary holding the merged
`FRAGMENT` bytes, the `MRN_SRC` value, the last merged `FRAG_NUM` and
the declared `tot_size`. -/
structure Envelope where
  GUID : PyVal
  FRAGMENT : List Nat
  MRN_SRC : PyVal
  FRAG_NUM : Int
  tot_size : Int
deriving DecidableEq

/-- The global `_news_envelopes` list. -/
abbrev InFlight := List Envelope

/-- Which return path or `except` handler of `process_mrn_update` an
event reaches.  `pending` is the bare `return None` while waiting for
more fragments (lines 76 and 98), `cannotFind` the logged rejection at
lines 81-82, `news` the successful decompress-and-parse at lines
101-104.  The `caught*` constructors are the `except` branches at lines
106-118; `caughtGeneric` is the final `except Exception` catch-all
(which receives, among others, `TypeError`, `ValueError` and
`json.JSONDecodeError`).  The `UnicodeEncodeError` branch concerns only
console printing and is not modelled. -/
inductive Outcome where
  | pending
  | cannotFind
  | news (assembled : List Nat) (doc : String)
  | caughtKeyError
  | caughtIndexError
  | caughtB64Error
  | caughtZlibError
  | caughtGeneric
deriving DecidableEq

/-- `next((index for (index, d) in enumerate(_news_envelopes) if d['GUID'] == guid), None)`
at line 61: index of the first envelope whose `GUID` equals `guid`. -/
def findGuidIdx (guid : PyVal) : InFlight → Option Nat
  | [] => none
  | d :: rest =>
    if d.GUID = guid then some 0 else (findGuidIdx guid rest).map (· + 1)

/-- Lines 101-104 together with their `except` branches: on a completed
byte sequence, `zlib.decompress(fragment, zlib.MAX_WBITS | 32)` then
`json.loads`.  A `zlib.error` reaches its own handler; a `json` parse
failure is a `ValueError` and reaches only the `except Exception`
catch-all. -/
def pipelineOutcome (inflate : List Nat → Option (List Nat))
    (loads : List Nat → Option String) (fragment : List Nat) : Outcome :=
  match inflate fragment with
  | none => .caughtZlibError
  | some decompressed =>
    match loads decompressed with
    | none => .caughtGeneric
    | some doc => .news fragment doc

/-- The `try` body of `process_mrn_update` (lines 49-118) on the `Fields`
dictionary of one update event and the current `_news_envelopes` list.
Every exception raised inside the `try` is caught by one of the
handlers, which only print; so each handler is mapped directly to its
`Outcome`, paired with the state at the raise point (no raise point in
the body follows a state mutation, and a pipeline failure follows the
completed deletion, which `pipelineOutcome` accounts for). -/
def accept (inflate : List Nat → Option (List Nat))
    (loads : List Nat → Option String)
    (fd : Fields) (st : InFlight) : Outcome × InFlight :=
  match lookupF fd "FRAGMENT" with
  | none => (.caughtKeyError, st)
  | some fragVal =>
    match fragVal with
    | .pint _ => (.caughtGeneric, st)
    | .pstr fragStr =>
      match b64decode fragStr with
      | none => (.caughtB64Error, st)
      | some fragment0 =>
        match lookupF fd "FRAG_NUM" with
        | none => (.caughtKeyError, st)
        | some fragNumVal =>
          match pyToInt fragNumVal with
          | none => (.caughtGeneric, st)
          | some frag_num =>
            match lookupF fd "GUID" with
            | none => (.caughtKeyError, st)
            | some guid =>
              match lookupF fd "MRN_SRC" with
              | none => (.caughtKeyError, st)
              | some mrn_src =>
                if frag_num > 1 then
                  match findGuidIdx guid st with
                  | none => (.caughtGeneric, st)
                  | some gi =>
                    match st.get? gi with
                    | none => (.caughtIndexError, st)
                    | some envelop =>
                      if envelop.MRN_SRC = mrn_src ∧
                          frag_num = envelop.FRAG_NUM + 1 then
                        let fragment := envelop.FRAGMENT ++ fragment0
                        let st1 := st.set gi
                          { envelop with FRAGMENT := fragment, FRAG_NUM := frag_num }
                        if envelop.tot_size ≠ (fragment.length : Int) then
                          (.pending, st1)
                        else
                          (pipelineOutcome inflate loads fragment, st1.eraseIdx gi)
                      else (.cannotFind, st)
                else
                  match lookupF fd "TOT_SIZE" with
                  | none => (.caughtKeyError, st)
                  | some totVal =>
                    match pyToInt totVal with
                    | none => (.caughtGeneric, st)
                    | some tot_size =>
                      if tot_size ≠ (fragment0.length : Int) then
                        (.pending,
                          st ++ [⟨guid, fragment0, mrn_src, frag_num, tot_size⟩])
                      else (pipelineOutcome inflate loads fragment0, st)

/-- The Python exception that can escape `process_mrn_update`. -/
inductive PyExc where
  | keyError
deriving DecidableEq

/-- `process_mrn_update` on a whole update message: the access
`message_json['Fields']` at line 43 happens *outside* the `try`, so a
message without a `Fields` key raises an uncaught `KeyError`
(`Except.error`); otherwise the handled body runs. -/
def process_mrn_update (inflate : List Nat → Option (List Nat))
    (loads : List Nat → Option String)
    (messageFields : Option Fields) (st : InFlight) :
    Except PyExc (Outcome × InFlight) :=
  match messageFields with
  | none => .error .keyError
  | some fd => .ok (accept inflate loads fd st)

/-- Feed a list of update events through `accept` in order, collecting
the outcomes and threading the envelope list. -/
def runEvents (inflate : List Nat → Option (List Nat))
    (loads : List Nat → Option String) :
    List Fields → InFlight → List Outcome × InFlight
  | [], st => ([], st)
  | fd :: rest, st =>
    let p := accept inflate loads fd st
    let q := runEvents inflate loads rest p.2
    (p.1 :: q.1, q.2)

/-! ### The event-shape predicates used by the claims -/

/-- The event's fields decode as lines 51-54 of the source require:
`FRAGMENT` is a string whose base64 decoding is `chunk`, `FRAG_NUM`
converts to the integer `i`, and `GUID` / `MRN_SRC` are the strings
`guid` / `src`. -/
def DecodesTo (fd : Fields) (guid src : String) (i : Int) (chunk : List Nat) : Prop :=
  (∃ s, lookupF fd "FRAGMENT" = some (.pstr s) ∧ b64decode s = some chunk) ∧
  (∃ v, lookupF fd "FRAG_NUM" = some v ∧ pyToInt v = some i) ∧
  lookupF fd "GUID" = some (.pstr guid) ∧
  lookupF fd "MRN_SRC" = some (.pstr src)

/-- The event's `TOT_SIZE` field converts to the integer `total`
(line 84 of the source). -/
def DeclaresTotal (fd : Fields) (total : Int) : Prop :=
  ∃ v, lookupF fd "TOT_SIZE" = some v ∧ pyToInt v = some total

/-! ### Multi-fragment runs (claim C1) -/

/-- Total byte length of a list of chunks. -/
def sumLen (l : List (List Nat)) : Nat := (l.map List.length).sum

/-- `FragmentRun guid src i evs chunks`: the events `evs` carry the
decoded chunks `chunks` for the message `guid` from source `src`, with
consecutive fragment numbers starting at `i`. -/
def FragmentRun (guid src : String) : Int → List Fields → List (List Nat) → Prop
  | _, [], [] => True
  | i, fd :: evs, chunk :: chunks =>
    DecodesTo fd guid src i chunk ∧ FragmentRun guid src (i + 1) evs chunks
  | _, _, _ => False

/-! ### Concrete fixtures for witnesses and counterexamples -/

/-- A decompressor that succeeds, returning its input. -/
def inflId : List Nat → Option (List Nat) := fun b => some b

/-- A decompressor that always fails (raises `zlib.error`). -/
def inflNone : List Nat → Option (List Nat) := fun _ => none

/-- A parser that always succeeds with a fixed document. -/
def loadsDoc : List Nat → Option String := fun _ => some "doc"

/-- A parser that always fails (raises `json.JSONDecodeError`). -/
def loadsNone : List Nat → Option String := fun _ => none

/-- First fragment of a three-byte message: chunk `"ab"`, total 3. -/
def fdM1 : Fields :=
  [("FRAGMENT", .pstr "YWI="), ("FRAG_NUM", .pstr "1"), ("GUID", .pstr "g"),
    ("MRN_SRC", .pstr "s"), ("TOT_SIZE", .pstr "3")]

/-- Second fragment of the same message: chunk `"c"`. -/
def fdM2 : Fields :=
  [("FRAGMENT", .pstr "Yw=="), ("FRAG_NUM", .pstr "2"), ("GUID", .pstr "g"),
    ("MRN_SRC", .pstr "s")]

/-- A complete single-fragment message: chunk `"ab"`, total 2. -/
def fdSingle : Fields :=
  [("FRAGMENT", .pstr "YWI="), ("FRAG_NUM", .pstr "1"), ("GUID", .pstr "g"),
    ("MRN_SRC", .pstr "s"), ("TOT_SIZE", .pstr "2")]

/-- An event whose `FRAGMENT` is not valid base64 (`"AB"` has incorrect
padding). -/
def fdBad64 : Fields :=
  [("FRAGMENT", .pstr "AB"), ("FRAG_NUM", .pstr "1"), ("GUID", .pstr "g"),
    ("MRN_SRC", .pstr "s"), ("TOT_SIZE", .pstr "2")]

/-- A second first-fragment event for guid `"g"`: chunk `"c"`, total 9. -/
def fdDup1 : Fields :=
  [("FRAGMENT", .pstr "Yw=="), ("FRAG_NUM", .pstr "1"), ("GUID", .pstr "g"),
    ("MRN_SRC", .pstr "s"), ("TOT_SIZE", .pstr "9")]

/-- A five-byte second fragment (chunk `"cdefg"`). -/
def fdBig2 : Fields :=
  [("FRAGMENT", .pstr "Y2RlZmc="), ("FRAG_NUM", .pstr "2"), ("GUID", .pstr "g"),
    ("MRN_SRC", .pstr "s")]

/-- A fragment-2 event (used where no in-flight entry exists). -/
def fdSkip2 : Fields :=
  [("FRAGMENT", .pstr "YWI="), ("FRAG_NUM", .pstr "2"), ("GUID", .pstr "g"),
    ("MRN_SRC", .pstr "s")]

/-- A first fragment carrying the non-positive `FRAG_NUM` `-1`. -/
def fdNeg1 : Fields :=
  [("FRAGMENT", .pstr "YWI="), ("FRAG_NUM", .pstr "-1"), ("GUID", .pstr "g"),
    ("MRN_SRC", .pstr "s"), ("TOT_SIZE", .pstr "9")]

/-- An event whose `FRAG_NUM` does not convert to an integer. -/
def fdBadNum : Fields :=
  [("FRAGMENT", .pstr "YWI="), ("FRAG_NUM", .pstr "x"), ("GUID", .pstr "g"),
    ("MRN_SRC", .pstr "s"), ("TOT_SIZE", .pstr "2")]

/-- Like `fdM2` but with a (spurious) `TOT_SIZE` field. -/
def fdM2Tot : Fields :=
  [("FRAGMENT", .pstr "Yw=="), ("FRAG_NUM", .pstr "2"), ("GUID", .pstr "g"),
    ("MRN_SRC", .pstr "s"), ("TOT_SIZE", .pstr "7")]

/-- An in-flight envelope for an unrelated guid `"h"`. -/
def envH : Envelope := ⟨.pstr "h", [5], .pstr "s", 1, 9⟩

/-- An in-flight envelope for guid `"g"` with two of three bytes. -/
def envG3 : Envelope := ⟨.pstr "g", [97, 98], .pstr "s", 1, 3⟩

/-- An in-flight envelope for guid `"g"` expecting nine bytes. -/
def envG9 : Envelope := ⟨.pstr "g", [97, 98], .pstr "s", 1, 9⟩

/-! ### List lemmas about the envelope list -/

theorem findGuidIdx_of_absent (g : PyVal) :
    ∀ st : InFlight, (∀ d ∈ st, d.GUID ≠ g) → findGuidIdx g st = none := by
  intro st h
  induction st with
  | nil => rfl
  | cons d rest ih =>
    have hd : d.GUID ≠ g := h d (by simp)
    simp only [findGuidIdx, if_neg hd]
    rw [ih (fun x hx => h x (by simp [hx]))]
    rfl

theorem findGuidIdx_split (g : PyVal) (stA stB : InFlight) (env : Envelope)
    (hA : ∀ d ∈ stA, d.GUID ≠ g) (henv : env.GUID = g) :
    findGuidIdx g (stA ++ env :: stB) = some stA.length := by
  induction stA with
  | nil => simp [findGuidIdx, henv]
  | cons d rest ih =>
    have hd : d.GUID ≠ g := hA d (by simp)
    have ih' := ih (fun x hx => hA x (by simp [hx]))
    simp [findGuidIdx, if_neg hd, ih']

theorem get?_split (stA : InFlight) (env : Envelope) (stB : InFlight) :
    (stA ++ env :: stB).get? stA.length = some env := by
  induction stA with
  | nil => rfl
  | cons d rest ih => exact ih

theorem set_split (stA : InFlight) (env env' : Envelope) (stB : InFlight) :
    (stA ++ env :: stB).set stA.length env' = stA ++ env' :: stB := by
  induction stA with
  | nil => rfl
  | cons d rest ih => simp

theorem eraseIdx_split (stA : InFlight) (env : Envelope) (stB : InFlight) :
    (stA ++ env :: stB).eraseIdx stA.length = stA ++ stB := by
  induction stA with
  | nil => rfl
  | cons d rest ih => simpa using ih

theorem findGuidIdx_get (g : PyVal) :
    ∀ (st : InFlight) (gi : Nat) (env : Envelope),
      findGuidIdx g st = some gi → st.get? gi = some env → env.GUID = g := by
  intro st
  induction st with
  | nil => intro gi env h; simp [findGuidIdx] at h
  | cons d rest ih =>
    intro gi env hfind hget
    by_cases hd : d.GUID = g
    · simp only [findGuidIdx, if_pos hd] at hfind
      cases hfind
      simp only [List.get?] at hget
      cases hget
      exact hd
    · simp only [findGuidIdx, if_neg hd] at hfind
      cases hrest : findGuidIdx g rest with
      | none => rw [hrest] at hfind; simp at hfind
      | some j =>
        rw [hrest] at hfind
        simp only [Option.map_some'] at hfind
        cases hfind
        exact ih j env hrest (by simpa using hget)

theorem filter_set_of_false (p : Envelope → Bool) :
    ∀ (st : InFlight) (gi : Nat) (env env' : Envelope),
      st.get? gi = some env → p env = false → p env' = false →
      (st.set gi env').filter p = st.filter p := by
  intro st
  induction st with
  | nil => intro gi env env' h; simp at h
  | cons d rest ih =>
    intro gi env env' hget hpe hpe'
    cases gi with
    | zero =>
      simp only [List.get?] at hget
      cases hget
      simp [List.filter, hpe, hpe']
    | succ j =>
      simp only [List.get?] at hget
      simp only [List.set, List.filter]
      rw [ih j env env' hget hpe hpe']

theorem filter_eraseIdx_of_false (p : Envelope → Bool) :
    ∀ (st : InFlight) (gi : Nat) (env : Envelope),
      st.get? gi = some env → p env = false →
      (st.eraseIdx gi).filter p = st.filter p := by
  intro st
  induction st with
  | nil => intro gi env h; simp at h
  | cons d rest ih =>
    intro gi env hget hpe
    cases gi with
    | zero =>
      simp only [List.get?] at hget
      cases hget
      simp [List.eraseIdx, List.filter, hpe]
    | succ j =>
      simp only [List.get?] at hget
      simp only [List.eraseIdx, List.filter]
      rw [ih j env hget hpe]

theorem get?_set_self (st : InFlight) (gi : Nat) (env env' : Envelope)
    (hget : st.get? gi = some env) : (st.set gi env').get? gi = some env' := by
  induction st generalizing gi with
  | nil => simp at hget
  | cons d rest ih =>
    cases gi with
    | zero => rfl
    | succ j =>
      simp only [List.get?] at hget
      simpa using ih j hget

/-! ### Branch lemmas for `accept` -/

/-- First-fragment branch (lines 83-98), incomplete case: the chunk is
shorter (or longer) than the declared total, so a fresh envelope is
appended to the list and the event is left pending. -/
theorem accept_first_incomplete (inflate : List Nat → Option (List Nat))
    (loads : List Nat → Option String) (fd : Fields) (st : InFlight)
    (guid src : String) (i : Int) (chunk : List Nat) (total : Int)
    (hd : DecodesTo fd guid src i chunk) (hi : i ≤ 1)
    (ht : DeclaresTotal fd total) (hne : total ≠ (chunk.length : Int)) :
    accept inflate loads fd st =
      (.pending, st ++ [⟨.pstr guid, chunk, .pstr src, i, total⟩]) := by
  obtain ⟨⟨s, hF, hB⟩, ⟨v, hN, hP⟩, hG, hM⟩ := hd
  obtain ⟨w, hT, hPT⟩ := ht
  have hile : ¬ i > 1 := by omega
  simp only [accept, hF, hB, hN, hP, hG, hM, hT, hPT, if_neg hile, if_pos hne]

/-- First-fragment branch, complete case (lines 83-84 then 101-104): the
chunk length equals the declared total, so the decode pipeline runs
directly and the envelope list is untouched. -/
theorem accept_first_complete (inflate : List Nat → Option (List Nat))
    (loads : List Nat → Option String) (fd : Fields) (st : InFlight)
    (guid src : String) (i : Int) (chunk : List Nat) (total : Int)
    (hd : DecodesTo fd guid src i chunk) (hi : i ≤ 1)
    (ht : DeclaresTotal fd total) (heq : total = (chunk.length : Int)) :
    accept inflate loads fd st = (pipelineOutcome inflate loads chunk, st) := by
  obtain ⟨⟨s, hF, hB⟩, ⟨v, hN, hP⟩, hG, hM⟩ := hd
  obtain ⟨w, hT, hPT⟩ := ht
  have hile : ¬ i > 1 := by omega
  have hnn : ¬ total ≠ (chunk.length : Int) := by omega
  simp only [accept, hF, hB, hN, hP, hG, hM, hT, hPT, if_neg hile, if_neg hnn]

/-- Later-fragment branch (lines 60-76), matching and still incomplete:
the chunk is merged into the found envelope, `FRAG_NUM` is advanced, and
the event is left pending. -/
theorem accept_merge_pending (inflate : List Nat → Option (List Nat))
    (loads : List Nat → Option String) (fd : Fields)
    (stA stB : InFlight) (env : Envelope)
    (guid src : String) (i : Int) (chunk : List Nat)
    (hA : ∀ d ∈ stA, d.GUID ≠ PyVal.pstr guid)
    (henv : env.GUID = PyVal.pstr guid)
    (hd : DecodesTo fd guid src i chunk) (hi : 1 < i)
    (hsrc : env.MRN_SRC = PyVal.pstr src)
    (hnum : i = env.FRAG_NUM + 1)
    (hne : env.tot_size ≠ ((env.FRAGMENT ++ chunk).length : Int)) :
    accept inflate loads fd (stA ++ env :: stB) =
      (.pending,
        stA ++ { env with FRAGMENT := env.FRAGMENT ++ chunk, FRAG_NUM := i } :: stB) := by
  obtain ⟨⟨s, hF, hB⟩, ⟨v, hN, hP⟩, hG, hM⟩ := hd
  simp only [accept, hF, hB, hN, hP, hG, hM, if_pos hi,
    findGuidIdx_split (PyVal.pstr guid) stA stB env hA henv,
    get?_split stA env stB, if_pos (And.intro hsrc hnum), if_pos hne,
    set_split stA env _ stB]

/-- Later-fragment branch, matching and completing (lines 60-79 then
101-104): the merged bytes reach the stored total, the envelope is
deleted and the decode pipeline runs on the merged bytes. -/
theorem accept_merge_complete (inflate : List Nat → Option (List Nat))
    (loads : List Nat → Option String) (fd : Fields)
    (stA stB : InFlight) (env : Envelope)
    (guid src : String) (i : Int) (chunk : List Nat)
    (hA : ∀ d ∈ stA, d.GUID ≠ PyVal.pstr guid)
    (henv : env.GUID = PyVal.pstr guid)
    (hd : DecodesTo fd guid src i chunk) (hi : 1 < i)
    (hsrc : env.MRN_SRC = PyVal.pstr src)
    (hnum : i = env.FRAG_NUM + 1)
    (heq : env.tot_size = ((env.FRAGMENT ++ chunk).length : Int)) :
    accept inflate loads fd (stA ++ env :: stB) =
      (pipelineOutcome inflate loads (env.FRAGMENT ++ chunk), stA ++ stB) := by
  obtain ⟨⟨s, hF, hB⟩, ⟨v, hN, hP⟩, hG, hM⟩ := hd
  have hnn : ¬ env.tot_size ≠ ((env.FRAGMENT ++ chunk).length : Int) := by
    exact fun h => h heq
  simp only [accept, hF, hB, hN, hP, hG, hM, if_pos hi,
    findGuidIdx_split (PyVal.pstr guid) stA stB env hA henv,
    get?_split stA env stB, if_pos (And.intro hsrc hnum), if_neg hnn,
    set_split stA env _ stB, eraseIdx_split stA _ stB]

/-- Later-fragment branch, found envelope but source or sequence-number
mismatch (lines 80-82): the logged rejection, list untouched. -/
theorem accept_merge_mismatch (inflate : List Nat → Option (List Nat))
    (loads : List Nat → Option String) (fd : Fields) (st : InFlight)
    (gi : Nat) (env : Envelope)
    (guid src : String) (i : Int) (chunk : List Nat)
    (hd : DecodesTo fd guid src i chunk) (hi : 1 < i)
    (hfind : findGuidIdx (PyVal.pstr guid) st = some gi)
    (hget : st.get? gi = some env)
    (hmis : ¬ (env.MRN_SRC = PyVal.pstr src ∧ i = env.FRAG_NUM + 1)) :
    accept inflate loads fd st = (.cannotFind, st) := by
  obtain ⟨⟨s, hF, hB⟩, ⟨v, hN, hP⟩, hG, hM⟩ := hd
  simp only [accept, hF, hB, hN, hP, hG, hM, if_pos hi, hfind, hget, if_neg hmis]

/-- Later-fragment branch, no envelope for the guid (line 61 yields
`None`, so line 62 indexes the list with `None` and raises `TypeError`,
reaching only the `except Exception` catch-all): generic failure, list
untouched. -/
theorem accept_absent_guid (inflate : List Nat → Option (List Nat))
    (loads : List Nat → Option String) (fd : Fields) (st : InFlight)
    (guid src : String) (i : Int) (chunk : List Nat)
    (hd : DecodesTo fd guid src i chunk) (hi : 1 < i)
    (habs : ∀ d ∈ st, d.GUID ≠ PyVal.pstr guid) :
    accept inflate loads fd st = (.caughtGeneric, st) := by
  obtain ⟨⟨s, hF, hB⟩, ⟨v, hN, hP⟩, hG, hM⟩ := hd
  simp only [accept, hF, hB, hN, hP, hG, hM, if_pos hi,
    findGuidIdx_of_absent (PyVal.pstr guid) st habs]

theorem runEvents_cons (inflate : List Nat → Option (List Nat))
    (loads : List Nat → Option String) (fd : Fields) (evs : List Fields)
    (st : InFlight) :
    runEvents inflate loads (fd :: evs) st =
      ((accept inflate loads fd st).1 ::
          (runEvents inflate loads evs (accept inflate loads fd st).2).1,
        (runEvents inflate loads evs (accept inflate loads fd st).2).2) := rfl

/-- Merge phase of a fragment run: starting from an in-flight envelope
holding `acc` at fragment number `k`, the remaining events each merge and
stay pending until the last one completes the message and deletes the
envelope. -/
theorem run_merge_aux (inflate : List Nat → Option (List Nat))
    (loads : List Nat → Option String) (guid src : String) (total : Int) :
    ∀ (evs : List Fields) (chunks : List (List Nat)) (acc : List Nat) (k : Int)
      (st0 : InFlight),
      FragmentRun guid src (k + 1) evs chunks → 1 ≤ k → evs ≠ [] →
      (∀ j : Nat, j + 1 < chunks.length →
        ((acc.length + sumLen (chunks.take (j + 1)) : Nat) : Int) ≠ total) →
      ((acc.length + sumLen chunks : Nat) : Int) = total →
      (∀ d ∈ st0, d.GUID ≠ PyVal.pstr guid) →
      runEvents inflate loads evs
          (st0 ++ [⟨PyVal.pstr guid, acc, PyVal.pstr src, k, total⟩]) =
        (List.replicate (evs.length - 1) Outcome.pending ++
          [pipelineOutcome inflate loads (acc ++ chunks.flatten)], st0) := by
  intro evs
  induction evs with
  | nil => intro chunks acc k st0 _ _ hne _ _ _; exact absurd rfl hne
  | cons fd evs' ih =>
    intro chunks acc k st0 hrun hk _ hpre hall hst0
    cases chunks with
    | nil => simp [FragmentRun] at hrun
    | cons c cs =>
      simp only [FragmentRun] at hrun
      obtain ⟨hdec, hrun'⟩ := hrun
      cases evs' with
      | nil =>
        cases cs with
        | cons c2 cs' => simp [FragmentRun] at hrun'
        | nil =>
          have heq : total = ((acc ++ c).length : Int) := by
            simp only [sumLen, List.map_cons, List.map_nil, List.sum_cons,
              List.sum_nil] at hall
            simp only [List.length_append]
            push_cast at hall ⊢
            omega
          have hacc := accept_merge_complete inflate loads fd st0 []
            ⟨PyVal.pstr guid, acc, PyVal.pstr src, k, total⟩ guid src (k + 1) c
            hst0 rfl hdec (by omega) rfl rfl heq
          rw [runEvents_cons, hacc]
          dsimp only
          simp [runEvents, List.flatten]
      | cons fd2 evs'' =>
        cases cs with
        | nil => simp [FragmentRun] at hrun'
        | cons c2 cs' =>
          have hne1 : total ≠ ((acc ++ c).length : Int) := by
            have h0 := hpre 0 (by simp)
            simp only [List.take_succ_cons, List.take_zero, sumLen,
              List.map_cons, List.map_nil, List.sum_cons, List.sum_nil] at h0
            simp only [List.length_append]
            push_cast at h0 ⊢
            omega
          have hmerge := accept_merge_pending inflate loads fd st0 []
            ⟨PyVal.pstr guid, acc, PyVal.pstr src, k, total⟩ guid src (k + 1) c
            hst0 rfl hdec (by omega) rfl rfl hne1
          have hmerge' : accept inflate loads fd
              (st0 ++ [⟨PyVal.pstr guid, acc, PyVal.pstr src, k, total⟩]) =
              (.pending,
                st0 ++ [⟨PyVal.pstr guid, acc ++ c, PyVal.pstr src, k + 1, total⟩]) :=
            hmerge
          have hpre' : ∀ j : Nat, j + 1 < (c2 :: cs').length →
              (((acc ++ c).length + sumLen ((c2 :: cs').take (j + 1)) : Nat) : Int) ≠
                total := by
            intro j hj
            have hj2 : (j + 1) + 1 < (c :: c2 :: cs').length := by
              simp at hj ⊢; omega
            have h := hpre (j + 1) hj2
            simp only [List.take_succ_cons, sumLen, List.map_cons, List.sum_cons,
              List.length_append] at h ⊢
            push_cast at h ⊢
            omega
          have hall' : (((acc ++ c).length + sumLen (c2 :: cs') : Nat) : Int) =
              total := by
            simp only [sumLen, List.map_cons, List.sum_cons,
              List.length_append] at hall ⊢
            push_cast at hall ⊢
            omega
          have hih := ih (c2 :: cs') (acc ++ c) (k + 1) st0 hrun' (by omega)
            (by simp) hpre' hall' hst0
          rw [runEvents_cons, hmerge']
          dsimp only
          rw [hih]
          simp [List.replicate_succ, List.append_assoc]

/-- C1: a full multi-fragment sequence `F1..Fn` for a fresh guid, with
consecutive fragment numbers from 1, consistent guid and source, the
total declared on `F1`, every proper leading part of the chunks summing
to strictly less than the total and the whole summing to exactly the
total, yields `Pending` for `F1..F(n-1)`, then completion on `Fn`: the
decode pipeline receives exactly the ordered concatenation of the chunks
and the envelope list returns to its initial value. -/
theorem C1_multi_fragment_reassembly (inflate : List Nat → Option (List Nat))
    (loads : List Nat → Option String) (guid src : String) (total : Int)
    (fd1 : Fields) (evs' : List Fields) (chunks : List (List Nat))
    (st0 : InFlight)
    (hrun : FragmentRun guid src 1 (fd1 :: evs') chunks)
    (htot : DeclaresTotal fd1 total)
    (hpre : ∀ k : Nat, k < chunks.length →
      ((sumLen (chunks.take k) : Nat) : Int) < total)
    (hall : ((sumLen chunks : Nat) : Int) = total)
    (hst0 : ∀ d ∈ st0, d.GUID ≠ PyVal.pstr guid) :
    runEvents inflate loads (fd1 :: evs') st0 =
      (List.replicate evs'.length Outcome.pending ++
        [pipelineOutcome inflate loads chunks.flatten], st0) := by
  cases chunks with
  | nil => simp [FragmentRun] at hrun
  | cons c cs =>
    simp only [FragmentRun] at hrun
    obtain ⟨hdec, hrun'⟩ := hrun
    cases evs' with
    | nil =>
      cases cs with
      | cons c2 cs' => simp [FragmentRun] at hrun'
      | nil =>
        have heq : total = (c.length : Int) := by
          simp only [sumLen, List.map_cons, List.map_nil, List.sum_cons,
            List.sum_nil] at hall
          push_cast at hall ⊢
          omega
        have hacc := accept_first_complete inflate loads fd1 st0 guid src 1 c
          total hdec (le_refl 1) htot heq
        rw [runEvents_cons, hacc]
        dsimp only
        simp [runEvents, List.flatten]
    | cons fd2 evs'' =>
      cases cs with
      | nil => simp [FragmentRun] at hrun'
      | cons c2 cs' =>
        have hlt1 : ((c.length : Nat) : Int) < total := by
          have h1 := hpre 1 (by simp)
          simpa [sumLen] using h1
        have hne : total ≠ (c.length : Int) := by omega
        have hacc := accept_first_incomplete inflate loads fd1 st0 guid src 1 c
          total hdec (le_refl 1) htot hne
        have hpre' : ∀ j : Nat, j + 1 < (c2 :: cs').length →
            ((c.length + sumLen ((c2 :: cs').take (j + 1)) : Nat) : Int) ≠
              total := by
          intro j hj
          have hj2 : (j + 1) + 1 < (c :: c2 :: cs').length := by
            simp at hj ⊢; omega
          have h := hpre ((j + 1) + 1) hj2
          simp only [List.take_succ_cons, sumLen, List.map_cons,
            List.sum_cons] at h ⊢
          push_cast at h ⊢
          omega
        have hall' : ((c.length + sumLen (c2 :: cs') : Nat) : Int) = total := by
          simp only [sumLen, List.map_cons, List.sum_cons] at hall ⊢
          push_cast at hall ⊢
          omega
        have hih := run_merge_aux inflate loads guid src total (fd2 :: evs'')
          (c2 :: cs') c 1 st0 hrun' (le_refl 1) (by simp) hpre' hall' hst0
        rw [runEvents_cons, hacc]
        dsimp only
        rw [hih]
        simp [List.replicate_succ, List.append_assoc]

/-! ### Preservation of unrelated guids -/

/-- Whatever `accept` does, envelopes whose `GUID` differs from the
event's `GUID` value are preserved exactly. -/
theorem accept_preserves_other_guids (inflate : List Nat → Option (List Nat))
    (loads : List Nat → Option String) (fd : Fields) (st : InFlight)
    (v : PyVal) (hv : lookupF fd "GUID" ≠ some v) :
    ((accept inflate loads fd st).2).filter (fun d => decide (d.GUID = v)) =
      st.filter (fun d => decide (d.GUID = v)) := by
  cases hF : lookupF fd "FRAGMENT" with
  | none => simp [accept, hF]
  | some fv =>
    cases fv with
    | pint n => simp [accept, hF]
    | pstr s =>
      cases hB : b64decode s with
      | none => simp [accept, hF, hB]
      | some chunk =>
        cases hN : lookupF fd "FRAG_NUM" with
        | none => simp [accept, hF, hB, hN]
        | some nv =>
          cases hP : pyToInt nv with
          | none => simp [accept, hF, hB, hN, hP]
          | some i =>
            cases hG : lookupF fd "GUID" with
            | none => simp [accept, hF, hB, hN, hP, hG]
            | some u =>
              have huv : u ≠ v := fun h => hv (by rw [hG, h])
              cases hM : lookupF fd "MRN_SRC" with
              | none => simp [accept, hF, hB, hN, hP, hG, hM]
              | some m =>
                by_cases hi : i > 1
                · cases hFind : findGuidIdx u st with
                  | none => simp [accept, hF, hB, hN, hP, hG, hM, hi, hFind]
                  | some gi =>
                    cases hGet : st.get? gi with
                    | none =>
                      simp only [accept, hF, hB, hN, hP, hG, hM, if_pos hi,
                        hFind, hGet]
                    | some env =>
                      have hEnvG : env.GUID = u := findGuidIdx_get u st gi env hFind hGet
                      have hpenv : decide (env.GUID = v) = false := by
                        simp [hEnvG, huv]
                      by_cases hcond : env.MRN_SRC = m ∧ i = env.FRAG_NUM + 1
                      · by_cases hts :
                            env.tot_size ≠ (((env.FRAGMENT ++ chunk).length : Nat) : Int)
                        · simp only [accept, hF, hB, hN, hP, hG, hM, if_pos hi,
                            hFind, hGet, if_pos hcond, if_pos hts]
                          exact filter_set_of_false _ st gi env _ hGet hpenv hpenv
                        · simp only [accept, hF, hB, hN, hP, hG, hM, if_pos hi,
                            hFind, hGet, if_pos hcond, if_neg hts]
                          have hset := get?_set_self st gi env
                            { env with FRAGMENT := env.FRAGMENT ++ chunk, FRAG_NUM := i }
                            hGet
                          rw [filter_eraseIdx_of_false _ _ gi _ hset hpenv,
                            filter_set_of_false _ st gi env _ hGet hpenv hpenv]
                      · simp only [accept, hF, hB, hN, hP, hG, hM, if_pos hi,
                          hFind, hGet, if_neg hcond]
                · cases hT : lookupF fd "TOT_SIZE" with
                  | none => simp [accept, hF, hB, hN, hP, hG, hM, hi, hT]
                  | some tv =>
                    cases hPT : pyToInt tv with
                    | none => simp [accept, hF, hB, hN, hP, hG, hM, hi, hT, hPT]
                    | some tot =>
                      by_cases hne : tot ≠ ((chunk.length : Nat) : Int)
                      · simp only [accept, hF, hB, hN, hP, hG, hM, if_neg hi,
                          hT, hPT, if_pos hne]
                        rw [List.filter_append]
                        simp [huv]
                      · simp only [accept, hF, hB, hN, hP, hG, hM, if_neg hi,
                          hT, hPT, if_neg hne]

/-! ### The claims -/

/-- C1: for fragment events `F1..Fn` in order with the same guid and
source, consecutive fragment numbers `1..n`, the total declared on `F1`,
every proper leading part of the decoded chunks summing strictly below
the total and the full sum equal to it, `accept` pends `F1..F(n-1)`,
completes on `Fn`, hands the ordered concatenation of the chunks to the
decode pipeline, and restores the envelope list. -/
theorem C1_reassembles_in_order (inflate : List Nat → Option (List Nat))
    (loads : List Nat → Option String) (guid src : String) (total : Int)
    (fd1 : Fields) (evs' : List Fields) (chunks : List (List Nat))
    (st0 : InFlight)
    (hrun : FragmentRun guid src 1 (fd1 :: evs') chunks)
    (htot : DeclaresTotal fd1 total)
    (hpre : ∀ k : Nat, k < chunks.length →
      ((sumLen (chunks.take k) : Nat) : Int) < total)
    (hall : ((sumLen chunks : Nat) : Int) = total)
    (hst0 : ∀ d ∈ st0, d.GUID ≠ PyVal.pstr guid) :
    runEvents inflate loads (fd1 :: evs') st0 =
      (List.replicate evs'.length Outcome.pending ++
        [pipelineOutcome inflate loads chunks.flatten], st0) :=
  C1_multi_fragment_reassembly inflate loads guid src total fd1 evs' chunks st0
    hrun htot hpre hall hst0

theorem C1_witness :
    runEvents inflId loadsDoc [fdM1, fdM2] [] =
      ([Outcome.pending, Outcome.news [97, 98, 99] "doc"], []) :=
  (C1_reassembles_in_order inflId loadsDoc "g" "s" 3 fdM1 [fdM2]
    [[97, 98], [99]] []
    ⟨⟨⟨"YWI=", rfl, rfl⟩, ⟨.pstr "1", rfl, rfl⟩, rfl, rfl⟩,
      ⟨⟨"Yw==", rfl, rfl⟩, ⟨.pstr "2", rfl, rfl⟩, rfl, rfl⟩, trivial⟩
    ⟨.pstr "3", rfl, rfl⟩
    (by intro k hk; simp at hk; interval_cases k <;> decide)
    (by decide)
    (by simp)).trans (by rfl)

/-- C2: a fragment-1 event whose decoded chunk length equals the declared
total completes immediately: the chunk goes straight to the decode
pipeline and the envelope list is unchanged (no in-flight entry is
created). -/
theorem C2_single_fragment_completes (inflate : List Nat → Option (List Nat))
    (loads : List Nat → Option String) (fd : Fields) (st : InFlight)
    (guid src : String) (chunk : List Nat) (total : Int)
    (hd : DecodesTo fd guid src 1 chunk) (ht : DeclaresTotal fd total)
    (hsz : total = ((chunk.length : Nat) : Int)) :
    accept inflate loads fd st = (pipelineOutcome inflate loads chunk, st) :=
  accept_first_complete inflate loads fd st guid src 1 chunk total hd
    (le_refl 1) ht hsz

theorem C2_witness :
    accept inflId loadsDoc fdSingle [envH] =
      (Outcome.news [97, 98] "doc", [envH]) :=
  (C2_single_fragment_completes inflId loadsDoc fdSingle [envH] "g" "s"
    [97, 98] 2
    ⟨⟨"YWI=", rfl, rfl⟩, ⟨.pstr "1", rfl, rfl⟩, rfl, rfl⟩
    ⟨.pstr "2", rfl, rfl⟩ (by decide)).trans (by rfl)

/-- C3 counterexample: from the empty envelope list, a first fragment for
guid `"g"` (incomplete, total 9) followed by another first fragment for
the same guid leaves TWO coexisting entries keyed `"g"`, the stale one
first — the claimed at-most-one-per-guid invariant, and the claimed
overwrite of the stale entry, both fail on this reachable state. -/
theorem C3_counterexample :
    ((runEvents inflId loadsDoc [fdM1, fdDup1] []).2.filter
        (fun d => decide (d.GUID = PyVal.pstr "g"))).length = 2 ∧
    (runEvents inflId loadsDoc [fdM1, fdDup1] []).2 =
      [⟨.pstr "g", [97, 98], .pstr "s", 1, 3⟩,
        ⟨.pstr "g", [99], .pstr "s", 1, 9⟩] :=
  ⟨rfl, rfl⟩

/-- C3 amended: an incomplete first fragment for a guid that already has
an in-flight entry does NOT overwrite it — the new envelope is appended
at the end of the list and the prior entry stays, so the list then holds
at least two entries for that guid (and the line-61 lookup keeps
resolving to the stale first one). -/
theorem C3_amended_appends_duplicate (inflate : List Nat → Option (List Nat))
    (loads : List Nat → Option String) (fd : Fields) (st : InFlight)
    (guid src : String) (chunk : List Nat) (total : Int) (env : Envelope)
    (hd : DecodesTo fd guid src 1 chunk) (ht : DeclaresTotal fd total)
    (hne : total ≠ ((chunk.length : Nat) : Int))
    (henv : env ∈ st) (hg : env.GUID = PyVal.pstr guid) :
    accept inflate loads fd st =
      (.pending, st ++ [(⟨.pstr guid, chunk, .pstr src, 1, total⟩ : Envelope)]) ∧
    2 ≤ ((st ++ [(⟨.pstr guid, chunk, .pstr src, 1, total⟩ : Envelope)]).filter
        (fun d => decide (d.GUID = PyVal.pstr guid))).length := by
  constructor
  · exact accept_first_incomplete inflate loads fd st guid src 1 chunk total
      hd (le_refl 1) ht hne
  · have hmem : env ∈ st.filter (fun d => decide (d.GUID = PyVal.pstr guid)) :=
      List.mem_filter.mpr ⟨henv, by simp [hg]⟩
    have hpos : 0 < (st.filter (fun d => decide (d.GUID = PyVal.pstr guid))).length :=
      List.length_pos_of_mem hmem
    rw [List.filter_append]
    simp only [List.length_append]
    have : (List.filter (fun d => decide (d.GUID = PyVal.pstr guid))
        [(⟨.pstr guid, chunk, .pstr src, 1, total⟩ : Envelope)]).length = 1 := by
      simp
    omega

theorem C3_witness :
    accept inflId loadsDoc fdDup1 [envG9] =
      (.pending, [envG9] ++ [(⟨.pstr "g", [99], .pstr "s", 1, 9⟩ : Envelope)]) ∧
    2 ≤ (([envG9] ++ [(⟨.pstr "g", [99], .pstr "s", 1, 9⟩ : Envelope)]).filter
        (fun d => decide (d.GUID = PyVal.pstr "g"))).length :=
  C3_amended_appends_duplicate inflId loadsDoc fdDup1 [envG9] "g" "s" [99] 9
    envG9
    ⟨⟨"Yw==", rfl, rfl⟩, ⟨.pstr "1", rfl, rfl⟩, rfl, rfl⟩
    ⟨.pstr "9", rfl, rfl⟩ (by decide) (by simp) rfl

/-- C4 counterexample: guid `"g"` declares total 3 and holds 2 bytes;
a matching fragment 2 brings 5 more bytes (7 > 3).  The code returns
`Pending` (not a rejection) and KEEPS the over-length entry: the final
list holds the `"g"` entry with 7 accumulated bytes against a stored
total of 3, violating the claimed removal and the claimed
`length ≤ total_size` invariant. -/
theorem C4_counterexample :
    (runEvents inflId loadsDoc [fdM1, fdBig2] []).1 =
      [Outcome.pending, Outcome.pending] ∧
    (runEvents inflId loadsDoc [fdM1, fdBig2] []).2 =
      [⟨.pstr "g", [97, 98, 99, 100, 101, 102, 103], .pstr "s", 2, 3⟩] ∧
    ((runEvents inflId loadsDoc [fdM1, fdBig2] []).2.map
        (fun d => ((d.FRAGMENT.length : Nat), d.tot_size))) = [(7, 3)] :=
  ⟨rfl, rfl, rfl⟩

/-- C4 amended: when a matching later fragment makes the accumulated
bytes strictly exceed the stored total, `accept` returns `Pending` and
keeps the (now over-length) entry in the list — there is no overflow
check, so no rejection happens, nothing is removed, and the
`length ≤ total_size` invariant does not hold for the remaining
entries. -/
theorem C4_amended_overflow_pends (inflate : List Nat → Option (List Nat))
    (loads : List Nat → Option String) (fd : Fields)
    (stA stB : InFlight) (env : Envelope)
    (guid src : String) (i : Int) (chunk : List Nat)
    (hA : ∀ d ∈ stA, d.GUID ≠ PyVal.pstr guid)
    (henv : env.GUID = PyVal.pstr guid)
    (hd : DecodesTo fd guid src i chunk) (hi : 1 < i)
    (hsrc : env.MRN_SRC = PyVal.pstr src)
    (hnum : i = env.FRAG_NUM + 1)
    (hover : env.tot_size < (((env.FRAGMENT ++ chunk).length : Nat) : Int)) :
    accept inflate loads fd (stA ++ env :: stB) =
      (.pending,
        stA ++ { env with FRAGMENT := env.FRAGMENT ++ chunk, FRAG_NUM := i } :: stB) :=
  accept_merge_pending inflate loads fd stA stB env guid src i chunk
    hA henv hd hi hsrc hnum (by omega)

theorem C4_witness :
    accept inflId loadsDoc fdBig2 ([] ++ envG3 :: []) =
      (.pending,
        [] ++ { envG3 with
          FRAGMENT := envG3.FRAGMENT ++ [99, 100, 101, 102, 103],
          FRAG_NUM := 2 } :: []) ∧
    (({ envG3 with
          FRAGMENT := envG3.FRAGMENT ++ [99, 100, 101, 102, 103],
          FRAG_NUM := 2 } : Envelope).tot_size <
      (({ envG3 with
          FRAGMENT := envG3.FRAGMENT ++ [99, 100, 101, 102, 103],
          FRAG_NUM := 2 } : Envelope).FRAGMENT.length : Int)) :=
  ⟨C4_amended_overflow_pends inflId loadsDoc fdBig2 [] [] envG3 "g" "s" 2
    [99, 100, 101, 102, 103] (by simp) rfl
    ⟨⟨"Y2RlZmc=", rfl, rfl⟩, ⟨.pstr "2", rfl, rfl⟩, rfl, rfl⟩
    (by decide) rfl rfl (by decide), by decide⟩

/-- C5: the failing input for the absent-entry case.  When no in-flight
entry exists for the event's guid, line 61 yields `None` and line 62
evaluates `_news_envelopes[None]`, raising `TypeError`; only the final
`except Exception` catch-all receives it, so the outcome is the generic
failure, not the intended line-81 cannot-find rejection — though the
list is indeed left untouched. -/
theorem C5_absent_entry_generic_failure :
    accept inflId loadsDoc fdSkip2 [] = (Outcome.caughtGeneric, []) ∧
    Outcome.caughtGeneric ≠ Outcome.cannotFind :=
  ⟨rfl, by decide⟩

/-- C6: an event whose `FRAGMENT` does not base64-decode reaches the
`binascii.Error` handler before any state is touched: the outcome is the
decode failure and the envelope list is returned unchanged. -/
theorem C6_bad_base64_leaves_state (inflate : List Nat → Option (List Nat))
    (loads : List Nat → Option String) (fd : Fields) (st : InFlight)
    (s : String)
    (hf : lookupF fd "FRAGMENT" = some (.pstr s)) (hb : b64decode s = none) :
    accept inflate loads fd st = (.caughtB64Error, st) := by
  simp only [accept, hf, hb]

theorem C6_witness :
    accept inflId loadsDoc fdBad64 [envG9, envH] =
      (.caughtB64Error, [envG9, envH]) :=
  C6_bad_base64_leaves_state inflId loadsDoc fdBad64 [envG9, envH] "AB" rfl rfl

/-- C7 counterexample: a message whose mapping has no `Fields` key.  The
access `message_json['Fields']` at line 43 sits outside the `try`, so
the `KeyError` propagates out of `process_mrn_update` instead of being
surfaced as a local outcome. -/
theorem C7_counterexample :
    process_mrn_update inflId loadsDoc none [] =
      Except.error PyExc.keyError :=
  rfl

/-- C7 amended: for every message that does contain the `Fields` key, no
exception escapes `process_mrn_update` — the result is a structured
outcome paired with the new list — and in-flight entries for every guid
other than the event's `GUID` value are preserved exactly. -/
theorem C7_amended_local_errors (inflate : List Nat → Option (List Nat))
    (loads : List Nat → Option String) (fd : Fields) (st : InFlight)
    (v : PyVal) (hv : lookupF fd "GUID" ≠ some v) :
    process_mrn_update inflate loads (some fd) st =
      Except.ok (accept inflate loads fd st) ∧
    ((accept inflate loads fd st).2).filter (fun d => decide (d.GUID = v)) =
      st.filter (fun d => decide (d.GUID = v)) :=
  ⟨rfl, accept_preserves_other_guids inflate loads fd st v hv⟩

theorem C7_witness :
    process_mrn_update inflId loadsDoc (some fdSkip2) [envH] =
      Except.ok (accept inflId loadsDoc fdSkip2 [envH]) ∧
    ((accept inflId loadsDoc fdSkip2 [envH]).2).filter
        (fun d => decide (d.GUID = PyVal.pstr "h")) =
      [envH].filter (fun d => decide (d.GUID = PyVal.pstr "h")) :=
  C7_amended_local_errors inflId loadsDoc fdSkip2 [envH] (PyVal.pstr "h")
    (by decide)

/-- C8 counterexample: on a completed message whose decompression
succeeds but whose JSON parse fails, the outcome is the generic
`except Exception` catch-all — exactly the same outcome produced by a
completely unrelated failure (here a non-numeric `FRAG_NUM`), so a parse
failure is NOT independently classified as the claim states.
(Decompression failure does have its own handler.) -/
theorem C8_counterexample :
    accept inflId loadsNone fdSingle [] = (Outcome.caughtGeneric, []) ∧
    accept inflId loadsDoc fdBadNum [] = (Outcome.caughtGeneric, []) ∧
    accept inflNone loadsDoc fdSingle [] = (Outcome.caughtZlibError, []) :=
  ⟨rfl, rfl, rfl⟩

/-- C8 amended: in the decode pipeline, a decompression failure reaches
the dedicated `zlib.error` handler, but a parse failure (a `ValueError`)
reaches only the generic `except Exception` catch-all — it is not
distinguishable from other unexpected failures. -/
theorem C8_amended_pipeline_errors (inflate : List Nat → Option (List Nat))
    (loads : List Nat → Option String) (b : List Nat) :
    (inflate b = none → pipelineOutcome inflate loads b = .caughtZlibError) ∧
    (∀ d, inflate b = some d → loads d = none →
      pipelineOutcome inflate loads b = .caughtGeneric) := by
  constructor
  · intro h
    simp [pipelineOutcome, h]
  · intro d h1 h2
    simp [pipelineOutcome, h1, h2]

theorem C8_witness :
    pipelineOutcome inflNone loadsDoc [1] = .caughtZlibError ∧
    pipelineOutcome inflId loadsNone [1] = .caughtGeneric :=
  ⟨(C8_amended_pipeline_errors inflNone loadsDoc [1]).1 rfl,
    (C8_amended_pipeline_errors inflId loadsNone [1]).2 [1] rfl rfl⟩

/-- C9: any event whose `FRAG_NUM` converts to an integer `i ≤ 1`
(including 0 and negatives) takes the first-fragment branch: `TOT_SIZE`
is read from the event, and when the chunk length differs from it a new
envelope is appended whose stored `FRAG_NUM` is that (possibly
non-positive) `i`. -/
theorem C9_nonpositive_fragment_number (inflate : List Nat → Option (List Nat))
    (loads : List Nat → Option String) (fd : Fields) (st : InFlight)
    (guid src : String) (i : Int) (chunk : List Nat) (total : Int)
    (hd : DecodesTo fd guid src i chunk) (hi : i ≤ 1)
    (ht : DeclaresTotal fd total)
    (hne : total ≠ ((chunk.length : Nat) : Int)) :
    accept inflate loads fd st =
      (.pending, st ++ [⟨.pstr guid, chunk, .pstr src, i, total⟩]) :=
  accept_first_incomplete inflate loads fd st guid src i chunk total
    hd hi ht hne

theorem C9_witness :
    accept inflId loadsDoc fdNeg1 [] =
      (.pending, [] ++ [(⟨.pstr "g", [97, 98], .pstr "s", -1, 9⟩ : Envelope)]) :=
  C9_nonpositive_fragment_number inflId loadsDoc fdNeg1 [] "g" "s" (-1)
    [97, 98] 9
    ⟨⟨"YWI=", rfl, rfl⟩, ⟨.pstr "-1", rfl, rfl⟩, rfl, rfl⟩
    (by decide) ⟨.pstr "9", rfl, rfl⟩ (by decide)

/-- C10: for an event whose `FRAG_NUM` converts to `i > 1`, the event's
`TOT_SIZE` field is never read — two events that agree on `FRAGMENT`,
`FRAG_NUM`, `GUID` and `MRN_SRC` (and may differ arbitrarily on
`TOT_SIZE`, present or absent) produce the same outcome and the same
resulting envelope list from any state: completion is judged only
against the stored per-envelope total. -/
theorem C10_tot_size_not_read (inflate : List Nat → Option (List Nat))
    (loads : List Nat → Option String) (fd1 fd2 : Fields) (st : InFlight)
    (v : PyVal) (i : Int)
    (h1 : lookupF fd1 "FRAGMENT" = lookupF fd2 "FRAGMENT")
    (h2 : lookupF fd1 "FRAG_NUM" = lookupF fd2 "FRAG_NUM")
    (h3 : lookupF fd1 "GUID" = lookupF fd2 "GUID")
    (h4 : lookupF fd1 "MRN_SRC" = lookupF fd2 "MRN_SRC")
    (hv : lookupF fd1 "FRAG_NUM" = some v) (hp : pyToInt v = some i)
    (hi : 1 < i) :
    accept inflate loads fd1 st = accept inflate loads fd2 st := by
  have hv2 : lookupF fd2 "FRAG_NUM" = some v := h2 ▸ hv
  cases hF : lookupF fd2 "FRAGMENT" with
  | none => simp only [accept, h1.trans hF, hF]
  | some fv =>
    have hF1 := h1.trans hF
    cases fv with
    | pint n => simp only [accept, hF1, hF]
    | pstr s =>
      cases hB : b64decode s with
      | none => simp only [accept, hF1, hF, hB]
      | some chunk =>
        cases hG : lookupF fd2 "GUID" with
        | none => simp only [accept, hF1, hF, hB, hv, hv2, hp, h3.trans hG, hG]
        | some u =>
          cases hM : lookupF fd2 "MRN_SRC" with
          | none => simp only [accept, hF1, hF, hB, hv, hv2, hp, h3.trans hG,
              hG, h4.trans hM, hM]
          | some m =>
            simp only [accept, hF1, hF, hB, hv, hv2, hp, h3.trans hG, hG,
              h4.trans hM, hM, if_pos hi]

theorem C10_witness :
    accept inflId loadsDoc fdM2 [envG3] = accept inflId loadsDoc fdM2Tot [envG3] ∧
    accept inflId loadsDoc fdM2 [envG3] = (Outcome.news [97, 98, 99] "doc", []) :=
  ⟨(C10_tot_size_not_read inflId loadsDoc fdM2 fdM2Tot [envG3]
      (PyVal.pstr "2") 2 rfl rfl rfl rfl rfl rfl (by decide)),
    rfl⟩
